import Mathlib

/-!
Verification of the mono multi-tenant access-control core: the ABAC policy
decision engine (`src/modules/abac/policy-engine.ts`), the policies service
and its cache (`PoliciesService`), the guard (`AbacGuard`), the tenant
resolver (`TenantResolverService` / `TenantAwareService`), and the audit
payload sanitizer (`AuditService`).  Each definition is a shallow embedding
of the corresponding TypeScript function.
-/

namespace Mono

/-- A JavaScript runtime value as it flows through the policy engine.
Numbers are modelled as integers (the policies and contexts exercised here
only carry integral numbers). `undefined` is the absent sentinel produced by
failed lookups. -/
inductive Value where
  | undefined : Value
  | null : Value
  | bool (b : Bool) : Value
  | num (n : Int) : Value
  | str (s : String) : Value
  | arr (elems : List Value) : Value
  | obj (fields : List (String × Value)) : Value

mutual

/-- JS strict equality `===`, modelled structurally; this is exact on the
primitive values the stored policies and contexts exercise (on two distinct
object/array literals JS compares references and yields false where the
structural model may yield true; no claim below depends on that case). -/
def beqValue : Value → Value → Bool
  | .undefined, .undefined => true
  | .null, .null => true
  | .bool a, .bool b => a == b
  | .num a, .num b => a == b
  | .str a, .str b => a == b
  | .arr a, .arr b => beqValueList a b
  | .obj a, .obj b => beqValueObj a b
  | _, _ => false

/-- Structural equality of value lists. -/
def beqValueList : List Value → List Value → Bool
  | [], [] => true
  | a :: as, b :: bs => beqValue a b && beqValueList as bs
  | _, _ => false

/-- Structural equality of string-keyed field lists. -/
def beqValueObj : List (String × Value) → List (String × Value) → Bool
  | [], [] => true
  | (ka, va) :: as, (kb, vb) :: bs => ka == kb && beqValue va vb && beqValueObj as bs
  | _, _ => false

end

/-- Is the value JS-nullish (`null` or `undefined`)? -/
def isNullish : Value → Bool
  | .undefined => true
  | .null => true
  | _ => false

mutual

/-- JS `String(x)` coercion, as used by the `contains` operator. -/
def jsToString : Value → String
  | .undefined => "undefined"
  | .null => "null"
  | .bool b => if b then "true" else "false"
  | .num n => toString n
  | .str s => s
  | .arr elems => jsToStringList elems
  | .obj _ => "[object Object]"

/-- `Array.prototype.toString`: elements joined by commas, `null` and
`undefined` elements rendered empty. -/
def jsToStringList : List Value → String
  | [] => ""
  | [v] => if isNullish v then "" else jsToString v
  | v :: rest =>
    (if isNullish v then "" else jsToString v) ++ "," ++ jsToStringList rest

end

/-- Does `needle` occur at the head of `hay`? -/
def leadMatch : List Char → List Char → Bool
  | [], _ => true
  | _ :: _, [] => false
  | a :: as, b :: bs => a == b && leadMatch as bs

/-- Does `needle` occur anywhere in `hay`? -/
def hasSub (needle hay : List Char) : Bool :=
  leadMatch needle hay ||
    match hay with
    | [] => false
    | _ :: bs => hasSub needle bs

/-- JS `haystack.includes(needle)` on strings. -/
def strIncludes (hay needle : String) : Bool :=
  hasSub needle.toList hay.toList

/-- JS `actual > expected` restricted to the same-type cases the policies use
(numeric if both numeric, lexicographic if both strings); mixed-type coercion
cases, which no stored policy of this system produces, are modelled as
false. -/
def jsGreater : Value → Value → Bool
  | .num a, .num b => b < a
  | .str a, .str b => b < a
  | _, _ => false

/-- JS `actual < expected`, same modelling note as `jsGreater`. -/
def jsLess : Value → Value → Bool
  | .num a, .num b => a < b
  | .str a, .str b => a < b
  | _, _ => false

/-- `PolicyEngine.compare` (policy-engine.ts): operator dispatch over the six
known operators; any other operator is false. -/
def compare (actual : Value) (operator : String) (expected : Value) : Bool :=
  if operator = "equals" then beqValue actual expected
  else if operator = "not_equals" then !beqValue actual expected
  else if operator = "greater" then jsGreater actual expected
  else if operator = "less" then jsLess actual expected
  else if operator = "in" then
    match expected with
    | .arr elems => elems.any (fun e => beqValue e actual)
    | _ => false
  else if operator = "contains" then strIncludes (jsToString actual) (jsToString expected)
  else false

/-- JS `String.prototype.split` with a one-character separator (the source
only ever splits on a dot), over the character list. -/
def splitChars (sep : Char) : List Char → List (List Char)
  | [] => [[]]
  | c :: rest =>
    let r := splitChars sep rest
    if c == sep then [] :: r
    else
      match r with
      | [] => [[c]]
      | h :: t => (c :: h) :: t

/-- `attrPath.split('.')` destructured to `[contextType, attr]`: the first
two components (the second may be missing). -/
def splitAttr (attrPath : String) : String × Option String :=
  let parts := (splitChars '.' attrPath.toList).map (fun cs => String.mk cs)
  (parts.headD "", parts[1]?)

/-- JS object property read `bag[k]`: first binding for the key, else the
absent sentinel. -/
def bagGet (bag : List (String × Value)) (k : String) : Value :=
  (bag.lookup k).getD .undefined

/-- JS `bag[attr]` where `attr` may be `undefined` (indexing with `undefined`
coerces to the property key "undefined", never bound in contexts this system
builds). -/
def getField (bag : List (String × Value)) (attr : Option String) : Value :=
  bagGet bag (attr.getD "undefined")

/-- `PolicyCondition` (types/policy.types.ts).  The source field `attribute`
is a Lean keyword and is rendered `attr` here: a namespaced path
`namespace.field`.  `value` is a literal or a reference object carrying a
`$ref` key. -/
structure PolicyCondition where
  attr : String
  operator : String
  value : Value

/-- `Policy` (types/policy.types.ts); `effect` is the string stored in the
database, cast unchecked to allow/deny in the source. -/
structure Policy where
  id : String
  name : String
  description : Option String
  effect : String
  conditions : List PolicyCondition

/-- `PolicyContext` (types/policy.types.ts): attribute bags are open-ended
string-keyed maps; `resource` is optional. -/
structure PolicyContext where
  subject : List (String × Value)
  resource : Option (List (String × Value))
  action : String
  environment : List (String × Value)

/-- `PolicyDecision` (types/policy.types.ts). -/
structure PolicyDecision where
  effect : String
  reason : String
deriving DecidableEq, Repr

/-- The namespace switch in `PolicyEngine.evaluateCondition`: the actual
value looked up for an attribute path, or `none` when the namespace is
unknown (the source returns false before any comparison in that case). -/
def lookupActual (attrPath : String) (context : PolicyContext) : Option Value :=
  let p := splitAttr attrPath
  if p.1 = "subject" then some (getField context.subject p.2)
  else if p.1 = "resource" then some ((context.resource.map (getField · p.2)).getD .undefined)
  else if p.1 = "environment" then some (getField context.environment p.2)
  else if p.1 = "action" then some (.str context.action)
  else none

/-- `PolicyEngine.resolveRef`: a value that is an object carrying a `$ref`
key is resolved as an attribute path against the same context; anything else
is the literal itself.  (A non-string `$ref` payload would raise a TypeError
in the source when `.split` is called on it; no stored policy produces one,
and it is modelled as resolving to the absent sentinel.) -/
def resolveRef (value : Value) (context : PolicyContext) : Value :=
  match value with
  | .obj fields =>
    match fields.lookup "$ref" with
    | some (.str ref) =>
      let p := splitAttr ref
      if p.1 = "subject" then getField context.subject p.2
      else if p.1 = "resource" then (context.resource.map (getField · p.2)).getD .undefined
      else if p.1 = "environment" then getField context.environment p.2
      else if p.1 = "action" then .str context.action
      else .undefined
    | some _ => .undefined
    | none => .obj fields
  | v => v

/-- `PolicyEngine.evaluateCondition`: split the attribute path, look up the
actual value (unknown namespace is immediately false), resolve the expected
value, compare. -/
def evaluateCondition (condition : PolicyCondition) (context : PolicyContext) : Bool :=
  match lookupActual condition.attr context with
  | none => false
  | some actual => compare actual condition.operator (resolveRef condition.value context)

/-- The loop body of `PolicyEngine.checkConditions`: short-circuit AND over
the condition list. -/
def condsHold : List PolicyCondition → PolicyContext → Bool
  | [], _ => true
  | c :: rest, context =>
    if evaluateCondition c context then condsHold rest context else false

/-- `PolicyEngine.checkConditions`. -/
def checkConditions (policy : Policy) (context : PolicyContext) : Bool :=
  condsHold policy.conditions context

/-- `PolicyEngine.evaluate`, with the engine's in-memory policy list made an
explicit argument: first matching policy wins, default deny otherwise. -/
def evaluate : List Policy → PolicyContext → PolicyDecision
  | [], _ => ⟨"deny", "No policy matched"⟩
  | policy :: rest, context =>
    if checkConditions policy context then ⟨policy.effect, policy.name⟩
    else evaluate rest context

/-! ## PoliciesService (part_019): the policy store adapter and its cache -/

/-- A row of the `policy_rules` table as read through Prisma (field
`attribute` is rendered `attr`, a Lean keyword). -/
structure DbRule where
  attr : String
  operator : String
  value : Value
  order : Nat

/-- A row of the `policies` table with its rules. -/
structure DbPolicy where
  id : String
  name : String
  description : Option String
  effect : String
  enabled : Bool
  tenantId : Option String
  rules : List DbRule

/-- Insert a rule after every already-placed rule of smaller-or-equal
`order`. -/
def insertRule (r : DbRule) : List DbRule → List DbRule
  | [] => [r]
  | x :: xs => if x.order ≤ r.order then x :: insertRule r xs else r :: x :: xs

/-- Prisma `orderBy: { order: 'asc' }`: stable sort of the rules by their
`order` column. -/
def sortRules (rules : List DbRule) : List DbRule :=
  rules.foldl (fun acc r => insertRule r acc) []

/-- The conversion inside `PoliciesService.loadEnabledPolicies`: a stored
policy becomes an engine `Policy`, its rules (ordered by `order`) becoming
the condition list. -/
def convertPolicy (p : DbPolicy) : Policy :=
  { id := p.id
    name := p.name
    description := p.description
    effect := p.effect
    conditions := (sortRules p.rules).map fun r => ⟨r.attr, r.operator, r.value⟩ }

/-- The database read of `loadEnabledPolicies`: enabled policies converted in
store order. -/
def enabledFromDb (db : List DbPolicy) : List Policy :=
  (db.filter (·.enabled)).map convertPolicy

/-- One entry of the `PoliciesService` cache map (it only ever holds the
single key "enabled_policies"). -/
structure CacheEntry where
  policies : List Policy
  timestamp : Nat

/-- The mutable state of `PoliciesService`: the backing `policies` table and
the cache entry (none when the map is empty). -/
structure SvcState where
  db : List DbPolicy
  cache : Option CacheEntry

/-- `private cacheTTL = 60000`. -/
def cacheTTL : Nat := 60000

/-- `PoliciesService.invalidateCache`: `this.cache.clear()`. -/
def invalidateCache (st : SvcState) : SvcState :=
  { st with cache := none }

/-- The cache-miss path of `loadEnabledPolicies`: read enabled policies from
the database, convert, store in the cache stamped with the current time. -/
def loadFresh (now : Nat) (st : SvcState) : List Policy × SvcState :=
  let ps := enabledFromDb st.db
  (ps, { st with cache := some ⟨ps, now⟩ })

/-- `PoliciesService.loadEnabledPolicies`: serve the cached list while it is
younger than the TTL, else reload from the database. -/
def loadEnabledPolicies (now : Nat) (st : SvcState) : List Policy × SvcState :=
  match st.cache with
  | some entry =>
    if now - entry.timestamp < cacheTTL then (entry.policies, st)
    else loadFresh now st
  | none => loadFresh now st

/-- `CreatePolicyDto` (create-policy.dto.ts): `enabled` defaults to true in
the database when omitted. -/
structure CreatePolicyDto where
  name : String
  description : Option String
  effect : String
  enabled : Option Bool

/-- JS `tenantId || null` on an optional string: the empty string collapses
to null. -/
def orNull (s : Option String) : Option String :=
  match s with
  | some v => if v = "" then none else some v
  | none => none

/-- `PoliciesService.create`: name-uniqueness check scoped by the tenantId
argument, insert (the created row itself carries no tenantId: the Prisma
`data` spread never sets that column), then synchronous cache invalidation
before returning. `newId` stands for the database-generated id. -/
def PoliciesService.create (dto : CreatePolicyDto) (rules : List DbRule)
    (tenantId : Option String) (newId : String) (st : SvcState) :
    Except String (DbPolicy × SvcState) :=
  match st.db.find? (fun p => p.name == dto.name && p.tenantId == orNull tenantId) with
  | some _ => .error "Policy with this name already exists"
  | none =>
    let row : DbPolicy :=
      { id := newId
        name := dto.name
        description := dto.description
        effect := dto.effect
        enabled := dto.enabled.getD true
        tenantId := none
        rules := rules }
    .ok (row, invalidateCache { st with db := st.db ++ [row] })

/-- `PoliciesService.findOne`: lookup by id, not-found otherwise. -/
def PoliciesService.findOne (id : String) (st : SvcState) : Except String DbPolicy :=
  match st.db.find? (fun p => p.id == id) with
  | some p => .ok p
  | none => .error "Policy not found"

/-- The partial-update payload of `PoliciesService.update` (`data: any`),
restricted to the updatable scalar columns of a policy row. -/
structure UpdateData where
  name : Option String
  description : Option String
  effect : Option String
  enabled : Option Bool

/-- Merge an update payload into a row (Prisma `update`). -/
def applyUpdate (data : UpdateData) (p : DbPolicy) : DbPolicy :=
  { p with
    name := data.name.getD p.name
    description := match data.description with | some d => some d | none => p.description
    effect := data.effect.getD p.effect
    enabled := data.enabled.getD p.enabled }

/-- `PoliciesService.update`: existence check, row update, then synchronous
cache invalidation before returning. -/
def PoliciesService.update (id : String) (data : UpdateData) (st : SvcState) :
    Except String (DbPolicy × SvcState) :=
  match PoliciesService.findOne id st with
  | .error e => .error e
  | .ok p =>
    let updated := applyUpdate data p
    let db := st.db.map fun q => if q.id == id then applyUpdate data q else q
    .ok (updated, invalidateCache { st with db := db })

/-- `PoliciesService.delete`: existence check, row removal, then synchronous
cache invalidation before returning. -/
def PoliciesService.deletePolicy (id : String) (st : SvcState) : Except String SvcState :=
  match PoliciesService.findOne id st with
  | .error e => .error e
  | .ok _ => .ok (invalidateCache { st with db := st.db.filter (fun p => p.id != id) })

/-- `PolicyEngine.loadPolicies` (run once from `onModuleInit`): take the
database policies when any exist, else fall back to the default in-memory
policy list, which `loadDefaultPolicies` sets to `[]`. -/
def loadPolicies (now : Nat) (st : SvcState) : List Policy × SvcState :=
  let r := loadEnabledPolicies now st
  if r.1.isEmpty then ([], r.2) else r

/-- The engine plus policies-service state visible to the administrative
surface: the engine's in-memory policy list and the service state. -/
structure Sys where
  enginePolicies : List Policy
  svc : SvcState

/-- `PoliciesController.reloadCache`: awaits `invalidateCache` on the
service and returns a message; it touches nothing else — in particular not
the engine's in-memory policy list. -/
def reloadCache (sys : Sys) : Sys :=
  { sys with svc := invalidateCache sys.svc }

/-! ## AbacGuard (decorators, guard file): the access decision point -/

/-- The authenticated actor shape the guard reads
(`request.user`). -/
structure User where
  id : String
  roles : Option (List String)
  permissions : Option (List String)
  department : Option String
  tenantId : Option String
  clearanceLevel : Option Int

/-- Lift an optional string into a JS value (`undefined` when absent). -/
def optStr : Option String → Value
  | some s => .str s
  | none => .undefined

/-- Lift an optional string list into a JS value. -/
def optStrList : Option (List String) → Value
  | some l => .arr (l.map .str)
  | none => .undefined

/-- Lift an optional number into a JS value. -/
def optNum : Option Int → Value
  | some n => .num n
  | none => .undefined

/-- The request view the guard consumes. -/
structure GuardRequest where
  user : Option User
  resource : Option (List (String × Value))
  params : List (String × String)
  method : String
  ip : Option String
  userAgent : Option String

/-- `request.resource ?? { id: request.params?.id }`. -/
def guardResource (req : GuardRequest) : List (String × Value) :=
  match req.resource with
  | some r => r
  | none => [("id", optStr (req.params.lookup "id"))]

/-- `user.roles?.[0]`: the primary role. -/
def primaryRole (u : User) : Value :=
  match u.roles with
  | some (r :: _) => .str r
  | _ => .undefined

/-- The `PolicyContext` literal assembled by `AbacGuard.canActivate`;
`timeOfDay` and `date` stand for the wall-clock strings taken from
`new Date()`. -/
def buildPolicyContext (req : GuardRequest) (u : User) (timeOfDay date : String) :
    PolicyContext :=
  { subject :=
      [("id", .str u.id), ("role", primaryRole u), ("roles", optStrList u.roles),
       ("permissions", optStrList u.permissions), ("department", optStr u.department),
       ("tenantId", optStr u.tenantId), ("clearanceLevel", optNum u.clearanceLevel)]
    resource := some (guardResource req)
    action := req.method
    environment :=
      [("timeOfDay", .str timeOfDay), ("date", .str date),
       ("ipAddress", optStr req.ip), ("userAgent", optStr req.userAgent)] }

/-- `AbacGuard.canActivate`: false immediately without an authenticated
actor, else the engine's verdict compared against `allow`. -/
def canActivate (req : GuardRequest) (policies : List Policy)
    (timeOfDay date : String) : Bool :=
  match req.user with
  | none => false
  | some u => (evaluate policies (buildPolicyContext req u timeOfDay date)).effect == "allow"

/-! ## TenantResolverService / TenantAwareService (tenant-aware.service.ts) -/

/-- A row of the `tenants` table (`deletedAt` is the soft-delete stamp). -/
structure TenantRec where
  id : String
  slug : String
  name : String
  domain : Option String
  isActive : Bool
  deletedAt : Option Nat

/-- `TenantContext` (tenant-aware.service.ts). -/
structure TenantContext where
  id : String
  slug : String
  name : String
  domain : Option String
  isActive : Bool
deriving DecidableEq, Repr

/-- The projection of a tenant row returned by the `findTenant*` lookups
(`domain: tenant.domain || undefined` collapses the empty string). -/
def toTenantContext (t : TenantRec) : TenantContext :=
  { id := t.id
    slug := t.slug
    name := t.name
    domain := t.domain.filter (· ≠ "")
    isActive := t.isActive }

/-- The Prisma filter shared by the lookups: matching key, not soft-deleted,
active. -/
def tenantLive (t : TenantRec) : Bool :=
  t.deletedAt.isNone && t.isActive

/-- `TenantResolverService.findTenantById`: `findFirst` on id among live
tenants, not-found otherwise. -/
def findTenantById (id : String) (db : List TenantRec) : Except String TenantContext :=
  match db.find? (fun t => t.id == id && tenantLive t) with
  | some t => .ok (toTenantContext t)
  | none => .error "Tenant not found or inactive"

/-- `TenantResolverService.findTenantBySlug`. -/
def findTenantBySlug (slug : String) (db : List TenantRec) : Except String TenantContext :=
  match db.find? (fun t => t.slug == slug && tenantLive t) with
  | some t => .ok (toTenantContext t)
  | none => .error "Tenant not found or inactive"

/-- `TenantResolverService.findTenantByDomain`. -/
def findTenantByDomain (domain : String) (db : List TenantRec) : Except String TenantContext :=
  match db.find? (fun t => t.domain == some domain && tenantLive t) with
  | some t => .ok (toTenantContext t)
  | none => .error "Tenant not found or inactive"

/-- JS truthiness of an optional string (absent or empty is falsy). -/
def truthyStr : Option String → Bool
  | some s => !(s == "")
  | none => false

/-- `TenantResolverService.resolveFromHeader`, embedded exactly as written:
the source binds its `tenantSlug` variable to the `x-tenant-id` header and
its `tenantId` variable to the `x-tenant-slug` header (the two reads are
swapped), then looks the first up by slug and the second up by id. -/
def resolveFromHeader (headers : List (String × String)) (db : List TenantRec) :
    Except String (Option TenantContext) :=
  let tenantSlug := headers.lookup "x-tenant-id"
  let tenantId := headers.lookup "x-tenant-slug"
  if !truthyStr tenantSlug && !truthyStr tenantId then .ok none
  else if truthyStr tenantSlug then (findTenantBySlug (tenantSlug.getD "") db).map some
  else (findTenantById (tenantId.getD "") db).map some

/-- `TenantResolverService.resolveFromSubdomain`: first label of the host
header; empty and the reserved labels `www`/`api` resolve to none. -/
def resolveFromSubdomain (headers : List (String × String)) (db : List TenantRec) :
    Except String (Option TenantContext) :=
  let host := (headers.lookup "host").getD ""
  let subdomain := (host.splitOn ".").headD ""
  if subdomain == "" || subdomain == "www" || subdomain == "api" then .ok none
  else (findTenantBySlug subdomain db).map some

/-- The token-claims view the jwt strategy reads. -/
structure JwtUser where
  tenantId : Option String

/-- `TenantResolverService.resolveFromJwt`: tenant id out of the actor's
claims; absent actor or falsy claim resolves to none. -/
def resolveFromJwt (user : Option JwtUser) (db : List TenantRec) :
    Except String (Option TenantContext) :=
  match user with
  | none => .ok none
  | some u =>
    if !truthyStr u.tenantId then .ok none
    else (findTenantById (u.tenantId.getD "") db).map some

/-- `TenantResolverService.resolveFromPath`: the
`^\/api\/tenant\/([^/]+)` prefix match. -/
def resolveFromPath (path : String) (db : List TenantRec) :
    Except String (Option TenantContext) :=
  if path.startsWith "/api/tenant/" then
    let slug := ((path.drop 12).takeWhile (· ≠ '/'))
    if slug == "" then .ok none
    else (findTenantBySlug slug db).map some
  else .ok none

/-- The request view the resolver consumes. -/
structure ResolverRequest where
  headers : List (String × String)
  user : Option JwtUser
  path : String

/-- `TenantResolverService.resolveTenantFromRequest`: dispatch on the
process-wide resolution mode, defaulting to the jwt strategy. -/
def resolveTenantFromRequest (mode : String) (req : ResolverRequest)
    (db : List TenantRec) : Except String (Option TenantContext) :=
  if mode == "subdomain" then resolveFromSubdomain req.headers db
  else if mode == "header" then resolveFromHeader req.headers db
  else if mode == "jwt" then resolveFromJwt req.user db
  else if mode == "path" then resolveFromPath req.path db
  else resolveFromJwt req.user db

/-- `TenantAwareService.validateTenantAccess`: falsy actor tenant rejects,
falsy resource tenant is allowed (tenant-agnostic resource), a mismatch of
two present ids rejects. -/
def validateTenantAccess (userTenantId resourceTenantId : Option String) :
    Except String Unit :=
  if !truthyStr userTenantId then .error "User does not belong to any tenant"
  else if !truthyStr resourceTenantId then .ok ()
  else if userTenantId != resourceTenantId then .error "Access denied: Tenant mismatch"
  else .ok ()

/-! ## AuditService (audit.service.ts): payload sanitization -/

mutual

/-- A JSON-like audit payload value. -/
inductive Json where
  | null : Json
  | bool (b : Bool) : Json
  | num (n : Int) : Json
  | str (s : String) : Json
  | arr (elems : JsonList) : Json
  | obj (fields : JsonObj) : Json

/-- A list of payload values. -/
inductive JsonList where
  | nil : JsonList
  | cons (hd : Json) (tl : JsonList) : JsonList

/-- A string-keyed field list of a payload mapping. -/
inductive JsonObj where
  | nil : JsonObj
  | cons (key : String) (val : Json) (tl : JsonObj) : JsonObj

end

/-- The fixed denylist of `AuditService.sanitizePayload`. -/
def forbiddenKeys : List String :=
  ["password", "refreshToken", "accessToken", "secret", "ssn"]

mutual

/-- `AuditService.deepOmit`: map over arrays, drop denylisted keys of
mappings and recurse into the kept values, return scalars unchanged. -/
def deepOmit : Json → Json
  | .null => .null
  | .bool b => .bool b
  | .num n => .num n
  | .str s => .str s
  | .arr elems => .arr (deepOmitList elems)
  | .obj fields => .obj (deepOmitObj fields)

/-- `value.map(v => this.deepOmit(v, forbiddenKeys))`. -/
def deepOmitList : JsonList → JsonList
  | .nil => .nil
  | .cons v tl => .cons (deepOmit v) (deepOmitList tl)

/-- The `Object.entries` loop of `deepOmit`: skip denylisted keys, recurse
into the rest. -/
def deepOmitObj : JsonObj → JsonObj
  | .nil => .nil
  | .cons k v tl =>
    if forbiddenKeys.contains k then deepOmitObj tl
    else .cons k (deepOmit v) (deepOmitObj tl)

end

/-- `AuditService.sanitizePayload`: non-objects (scalars) pass through, and
objects and arrays are deep-scrubbed.  (JSON `null` is returned as null by
the `payload ?? null` guard.) -/
def sanitizePayload : Json → Json
  | .arr elems => deepOmit (.arr elems)
  | .obj fields => deepOmit (.obj fields)
  | scalar => scalar

/-- Is the payload a scalar (not an array or mapping)? -/
def isScalar : Json → Bool
  | .arr _ => false
  | .obj _ => false
  | _ => true

mutual

/-- No denylisted key occurs at any depth of the value. -/
def cleanJson : Json → Bool
  | .arr elems => cleanList elems
  | .obj fields => cleanObj fields
  | _ => true

/-- No denylisted key occurs at any depth of the list elements. -/
def cleanList : JsonList → Bool
  | .nil => true
  | .cons v tl => cleanJson v && cleanList tl

/-- No denylisted key occurs among the fields or at any depth below. -/
def cleanObj : JsonObj → Bool
  | .nil => true
  | .cons k v tl => !forbiddenKeys.contains k && cleanJson v && cleanObj tl

end

/-! ## Helper lemmas -/

/-- Only the absent sentinel is strictly equal to the absent sentinel. -/
theorem beqValue_undef_left (v : Value) : beqValue .undefined v = true ↔ v = .undefined := by
  cases v <;> simp [beqValue]

/-- Only the absent sentinel is strictly equal to the absent sentinel. -/
theorem beqValue_undef_right (v : Value) : beqValue v .undefined = true ↔ v = .undefined := by
  cases v <;> simp [beqValue]

/-- The condition loop is the boolean AND over the condition list. -/
theorem condsHold_eq_all (cs : List PolicyCondition) (context : PolicyContext) :
    condsHold cs context = cs.all (fun c => evaluateCondition c context) := by
  induction cs with
  | nil => rfl
  | cons c rest ih => by_cases h : evaluateCondition c context <;> simp [condsHold, h, ih]

/-- With an empty cache, `loadEnabledPolicies` reads the database. -/
theorem load_after_invalidate (now : Nat) (st : SvcState) (h : st.cache = none) :
    (loadEnabledPolicies now st).1 = enabledFromDb st.db := by
  simp [loadEnabledPolicies, h, loadFresh]

/-- A concrete decision context with no attributes. -/
def ctx0 : PolicyContext := ⟨[], none, "GET", []⟩

/-! ## C1: first-match evaluation with default deny -/

/-- C1 (amended): for every policy list and context, `evaluate` returns the
effect (with the policy name as the reason) of the first policy in the
supplied order whose conditions all hold — the condition list is an AND —
and when no policy matches it returns effect deny with reason
"No policy matched" (the source capitalizes the reason), never an error. -/
theorem evaluate_first_match (ps : List Policy) (context : PolicyContext) :
    (evaluate ps context =
      match ps.find? (fun p => checkConditions p context) with
      | some p => ⟨p.effect, p.name⟩
      | none => ⟨"deny", "No policy matched"⟩)
    ∧ ∀ p : Policy, checkConditions p context =
        p.conditions.all (fun c => evaluateCondition c context) := by
  constructor
  · induction ps with
    | nil => rfl
    | cons p rest ih =>
      by_cases h : checkConditions p context
      · have hf : List.find? (fun q => checkConditions q context) (p :: rest) = some p :=
          List.find?_cons_of_pos _ h
        rw [hf]
        simp [evaluate, h]
      · have hf : List.find? (fun q => checkConditions q context) (p :: rest)
            = List.find? (fun q => checkConditions q context) rest :=
          List.find?_cons_of_neg _ (by simp [h])
        rw [hf]
        simp only [evaluate, h, if_false, Bool.false_eq_true, ite_false]
        exact ih
  · intro p
    exact condsHold_eq_all p.conditions context

/-- C1 counterexample: with no policies, the decision at a concrete context
is deny with reason "No policy matched" — not the claimed lower-case
"no policy matched". -/
theorem evaluate_default_reason_capitalized :
    evaluate [] ctx0 ≠ ⟨"deny", "no policy matched"⟩
    ∧ evaluate [] ctx0 = ⟨"deny", "No policy matched"⟩ := by
  refine ⟨by decide, rfl⟩

/-! ## C2: header-mode tenant resolution -/

/-- A tenant store holding one active, non-soft-deleted tenant with slug
"acme" and id "t1". -/
def acmeDb : List TenantRec := [⟨"t1", "acme", "Acme Corp", none, true, none⟩]

/-- C2: the active tenant "acme" is perfectly findable by slug, yet in
header mode a request carrying only `x-tenant-slug: acme` is routed to the
lookup **by id** (the source reads the two headers into swapped variables)
and therefore fails with not-found instead of resolving to tenant "t1";
with neither tenant header, resolution is none without error. -/
theorem header_slug_lookup_misroutes :
    findTenantBySlug "acme" acmeDb = .ok ⟨"t1", "acme", "Acme Corp", none, true⟩
    ∧ resolveTenantFromRequest "header" ⟨[("x-tenant-slug", "acme")], none, "/"⟩ acmeDb
        = .error "Tenant not found or inactive"
    ∧ resolveTenantFromRequest "header" ⟨[], none, "/"⟩ acmeDb = .ok none := by
  refine ⟨rfl, rfl, rfl⟩

/-! ## C6: absent-sentinel comparisons -/

/-- A condition comparing one missing subject attribute to a `$ref` of
another missing subject attribute. -/
def refCond : PolicyCondition :=
  ⟨"subject.missing1", "equals", .obj [("$ref", .str "subject.missing2")]⟩

/-- A context whose subject has only an id. -/
def refCtx : PolicyContext := ⟨[("id", .str "u1")], none, "GET", []⟩

/-- C6 counterexample: a condition with operator `equals` whose actual value
is absent evaluates to TRUE when its `$ref` expected value is also absent
(`undefined === undefined`), contradicting the claim that `equals` against
an absent actual is always false. -/
theorem equals_absent_vs_absent_true :
    refCond.operator = "equals"
    ∧ lookupActual refCond.attr refCtx = some .undefined
    ∧ evaluateCondition refCond refCtx = true := ⟨rfl, rfl, rfl⟩

/-- If the right operand is present, strict equality with the absent
sentinel on the left is false. -/
theorem beqValue_undef_left_ne (v : Value) (h : v ≠ .undefined) :
    beqValue .undefined v = false := by
  cases v <;> first | exact absurd rfl h | rfl

/-- C6 (amended): an attribute lookup that does not resolve yields the
absent sentinel, which participates in comparisons like any other value:
`equals` against an absent actual is false whenever the resolved expected
value is itself present (when both sides are absent the condition is true),
and `in` against an absent actual is false whenever the expected sequence
does not itself contain the absent sentinel. -/
theorem absent_comparisons (c : PolicyCondition) (context : PolicyContext)
    (h : lookupActual c.attr context = some .undefined) :
    (∀ (bag : List (String × Value)) (fld : String),
        bag.lookup fld = none → getField bag (some fld) = .undefined)
    ∧ (c.operator = "equals" → resolveRef c.value context ≠ .undefined →
        evaluateCondition c context = false)
    ∧ (c.operator = "in" →
        (∀ elems, resolveRef c.value context = .arr elems → Value.undefined ∉ elems) →
        evaluateCondition c context = false) := by
  refine ⟨?_, ?_, ?_⟩
  · intro bag fld hb
    simp [getField, bagGet, hb]
  · intro hop hne
    unfold evaluateCondition
    rw [h, hop]
    show compare .undefined "equals" (resolveRef c.value context) = false
    unfold compare
    rw [if_pos rfl]
    exact beqValue_undef_left_ne _ hne
  · intro hop hmem
    unfold evaluateCondition
    rw [h, hop]
    show compare .undefined "in" (resolveRef c.value context) = false
    unfold compare
    rw [if_neg (by decide), if_neg (by decide), if_neg (by decide), if_neg (by decide),
        if_pos rfl]
    cases hval : resolveRef c.value context with
    | arr elems =>
      rw [List.any_eq_false]
      intro x hx hbeq
      exact absurd ((beqValue_undef_right x).mp hbeq ▸ hx) (hmem elems hval)
    | undefined => rfl
    | null => rfl
    | bool b => rfl
    | num n => rfl
    | str s => rfl
    | obj fields => rfl

/-- C6 witness: a missing subject attribute compared by `equals` with a
present literal is false, and by `in` with a concrete sequence not
containing the sentinel is false. -/
theorem absent_comparisons_witness :
    evaluateCondition ⟨"subject.x", "equals", .str "v"⟩ refCtx = false
    ∧ evaluateCondition ⟨"subject.x", "in", .arr [.str "v"]⟩ refCtx = false :=
  ⟨(absent_comparisons ⟨"subject.x", "equals", .str "v"⟩ refCtx rfl).2.1 rfl
      (by simp [resolveRef]),
   (absent_comparisons ⟨"subject.x", "in", .arr [.str "v"]⟩ refCtx rfl).2.2 rfl
      (by
        intro elems hel
        have h2 : Value.arr [Value.str "v"] = Value.arr elems := hel
        have h3 := (Value.arr.inj h2).symm
        subst h3
        simp)⟩

/-! ## C7: total, fail-closed comparison -/

/-- Is the value a JS array? -/
def isArr : Value → Bool
  | .arr _ => true
  | _ => false

/-- C7: comparison is total and fail-closed: `in` against a non-sequence
expected value is false rather than an error, and any operator outside the
six known ones is false.  (Totality of `compare`/`evaluate` as Lean
functions embeds the "never throws for malformed context" part.) -/
theorem compare_fail_closed (actual : Value) (operator : String) (expected : Value) :
    (operator = "in" → isArr expected = false → compare actual operator expected = false)
    ∧ (operator ∉ (["equals", "not_equals", "greater", "less", "in", "contains"] :
          List String) →
        compare actual operator expected = false) := by
  constructor
  · intro hop harr
    subst hop
    unfold compare
    rw [if_neg (by decide), if_neg (by decide), if_neg (by decide), if_neg (by decide),
        if_pos rfl]
    cases expected <;> simp_all [isArr]
  · intro hop
    have h1 : operator ≠ "equals" := fun e => hop (by simp [e])
    have h2 : operator ≠ "not_equals" := fun e => hop (by simp [e])
    have h3 : operator ≠ "greater" := fun e => hop (by simp [e])
    have h4 : operator ≠ "less" := fun e => hop (by simp [e])
    have h5 : operator ≠ "in" := fun e => hop (by simp [e])
    have h6 : operator ≠ "contains" := fun e => hop (by simp [e])
    unfold compare
    rw [if_neg h1, if_neg h2, if_neg h3, if_neg h4, if_neg h5, if_neg h6]

/-- C7 witness: `in` against a non-array and an unknown operator both
evaluate to false at concrete inputs. -/
theorem compare_fail_closed_witness :
    compare (.str "x") "in" (.str "nope") = false
    ∧ compare (.str "x") "matches" (.str "y") = false :=
  ⟨(compare_fail_closed (.str "x") "in" (.str "nope")).1 rfl rfl,
   (compare_fail_closed (.str "x") "matches" (.str "y")).2 (by decide)⟩

/-! ## C3 / C10: audit payload sanitization -/

mutual

/-- A deep-scrubbed value carries no denylisted key at any depth. -/
theorem deepOmit_clean : ∀ (v : Json), cleanJson (deepOmit v) = true
  | .null => rfl
  | .bool _ => rfl
  | .num _ => rfl
  | .str _ => rfl
  | .arr elems => by simpa [deepOmit, cleanJson] using deepOmitList_clean elems
  | .obj fields => by simpa [deepOmit, cleanJson] using deepOmitObj_clean fields

/-- List version of `deepOmit_clean`. -/
theorem deepOmitList_clean : ∀ (l : JsonList), cleanList (deepOmitList l) = true
  | .nil => rfl
  | .cons v tl => by
    simp [deepOmitList, cleanList, deepOmit_clean v, deepOmitList_clean tl]

/-- Field-list version of `deepOmit_clean`. -/
theorem deepOmitObj_clean : ∀ (o : JsonObj), cleanObj (deepOmitObj o) = true
  | .nil => rfl
  | .cons k v tl => by
    show cleanObj (if forbiddenKeys.contains k then deepOmitObj tl
      else JsonObj.cons k (deepOmit v) (deepOmitObj tl)) = true
    cases hk : forbiddenKeys.contains k
    · have hk2 : k ∉ forbiddenKeys := by simpa using hk
      simp [cleanObj, hk2, deepOmit_clean v, deepOmitObj_clean tl]
    · simpa using deepOmitObj_clean tl

end

mutual

/-- Deep-scrubbing a value that carries no denylisted key changes nothing. -/
theorem deepOmit_of_clean : ∀ (v : Json), cleanJson v = true → deepOmit v = v
  | .null, _ => rfl
  | .bool _, _ => rfl
  | .num _, _ => rfl
  | .str _, _ => rfl
  | .arr elems, h => by
    simp only [cleanJson] at h
    simp [deepOmit, deepOmitList_of_clean elems h]
  | .obj fields, h => by
    simp only [cleanJson] at h
    simp [deepOmit, deepOmitObj_of_clean fields h]

/-- List version of `deepOmit_of_clean`. -/
theorem deepOmitList_of_clean : ∀ (l : JsonList), cleanList l = true → deepOmitList l = l
  | .nil, _ => rfl
  | .cons v tl, h => by
    simp only [cleanList, Bool.and_eq_true] at h
    simp [deepOmitList, deepOmit_of_clean v h.1, deepOmitList_of_clean tl h.2]

/-- Field-list version of `deepOmit_of_clean`. -/
theorem deepOmitObj_of_clean : ∀ (o : JsonObj), cleanObj o = true → deepOmitObj o = o
  | .nil, _ => rfl
  | .cons k v tl, h => by
    simp only [cleanObj, Bool.and_eq_true, Bool.not_eq_true'] at h
    obtain ⟨⟨hk, hv⟩, ht⟩ := h
    show (if forbiddenKeys.contains k then deepOmitObj tl
      else JsonObj.cons k (deepOmit v) (deepOmitObj tl)) = JsonObj.cons k v tl
    rw [hk]
    simp [deepOmit_of_clean v hv, deepOmitObj_of_clean tl ht]

end

/-- The spec's worked payload: a nested mapping with a password at two
depths. -/
def samplePayload : Json :=
  .obj (.cons "user"
    (.obj (.cons "password" (.str "x")
      (.cons "profile" (.obj (.cons "password" (.str "y") .nil)) .nil))) .nil)

/-- The expected scrubbed form of `samplePayload`. -/
def sampleScrubbed : Json :=
  .obj (.cons "user" (.obj (.cons "profile" (.obj .nil) .nil)) .nil)

/-- C3: sanitization removes every denylisted key at every nesting depth —
recursing into array elements and mapping values — passes scalars through
unchanged, and maps the spec's sample payload to its password-free form. -/
theorem sanitizePayload_scrubs :
    (∀ p : Json, cleanJson (sanitizePayload p) = true)
    ∧ (∀ p : Json, isScalar p = true → sanitizePayload p = p)
    ∧ sanitizePayload samplePayload = sampleScrubbed := by
  refine ⟨?_, ?_, rfl⟩
  · intro p
    cases p with
    | arr elems => exact deepOmit_clean (.arr elems)
    | obj fields => exact deepOmit_clean (.obj fields)
    | null => rfl
    | bool b => rfl
    | num n => rfl
    | str s => rfl
  · intro p h
    cases p <;> first | rfl | simp [isScalar] at h

/-- C3 witness: the sanitizer at concrete inputs — a scalar passes through,
and the sample payload's result is clean. -/
theorem sanitizePayload_scrubs_witness :
    (isScalar (Json.str "x") = true ∧ sanitizePayload (Json.str "x") = Json.str "x")
    ∧ cleanJson (sanitizePayload samplePayload) = true :=
  ⟨⟨rfl, sanitizePayload_scrubs.2.1 (Json.str "x") rfl⟩,
   sanitizePayload_scrubs.1 samplePayload⟩

/-- C10: ths sanitizer is idempotent — re-sanitizing a sanitized payload
yields the same payload. -/
theorem sanitizePayload_idem (p : Json) :
    sanitizePayload (sanitizePayload p) = sanitizePayload p := by
  cases p with
  | arr elems =>
    show deepOmit (Json.arr (deepOmitList elems)) = Json.arr (deepOmitList elems)
    exact deepOmit_of_clean _ (deepOmit_clean (Json.arr elems))
  | obj fields =>
    show deepOmit (Json.obj (deepOmitObj fields)) = Json.obj (deepOmitObj fields)
    exact deepOmit_of_clean _ (deepOmit_clean (Json.obj fields))
  | null => rfl
  | bool b => rfl
  | num n => rfl
  | str s => rfl

/-! ## C4: reload-cache does not reach the engine's policy list -/

/-- An enabled allow-everything policy row (zero conditions is a universal
match). -/
def allowAllRow : DbPolicy := ⟨"p1", "allow-all", none, "allow", true, none, []⟩

/-- Engine startup against a store holding `allowAllRow`: the loaded engine
policy list and the service state after the initial load. -/
def c4start : List Policy × SvcState := loadPolicies 0 ⟨[allowAllRow], none⟩

/-- The service state after the policy is deleted through the service. -/
def c4afterDelete : SvcState :=
  (PoliciesService.deletePolicy "p1" c4start.2).toOption.getD c4start.2

/-- The whole system after the delete plus an operator reload-cache call. -/
def c4sys : Sys := reloadCache ⟨c4start.1, c4afterDelete⟩

/-- C4: the administrative reload-cache operation empties the service cache,
but the engine's `evaluate` consults only the engine's in-memory list, which
is populated once at module init and is never refreshed by the reload: after
deleting the only policy and reloading the cache, `evaluate` still allows
while the store's current enabled policies (which the next
`loadEnabledPolicies` returns) yield deny. -/
theorem reload_does_not_refresh_engine :
    (PoliciesService.deletePolicy "p1" c4start.2).isOk = true
    ∧ c4sys.svc.db = [] ∧ c4sys.svc.cache = none
    ∧ c4sys.enginePolicies = [convertPolicy allowAllRow]
    ∧ (evaluate c4sys.enginePolicies ctx0).effect = "allow"
    ∧ (loadEnabledPolicies 1 c4sys.svc).1 = []
    ∧ (evaluate (loadEnabledPolicies 1 c4sys.svc).1 ctx0).effect = "deny" := by
  refine ⟨rfl, rfl, rfl, rfl, rfl, rfl, rfl⟩

/-! ## C5: writes synchronously invalidate the policy cache -/

/-- C5: every successful create, update or delete leaves the cache empty —
the invalidation happens before the call returns — so the next
`loadEnabledPolicies`, at any timestamp, reads the written database state
(no stale window on explicit writes). -/
theorem policy_writes_no_stale_window (st : SvcState) (now : Nat) :
    (∀ dto rules tenantId newId row st2,
        PoliciesService.create dto rules tenantId newId st = .ok (row, st2) →
        st2.cache = none ∧ (loadEnabledPolicies now st2).1 = enabledFromDb st2.db)
    ∧ (∀ id data p st2,
        PoliciesService.update id data st = .ok (p, st2) →
        st2.cache = none ∧ (loadEnabledPolicies now st2).1 = enabledFromDb st2.db)
    ∧ (∀ id st2,
        PoliciesService.deletePolicy id st = .ok st2 →
        st2.cache = none ∧ (loadEnabledPolicies now st2).1 = enabledFromDb st2.db) := by
  refine ⟨?_, ?_, ?_⟩
  · intro dto rules tenantId newId row st2 h
    unfold PoliciesService.create at h
    split at h
    · exact absurd h (by simp)
    · simp only [Except.ok.injEq, Prod.mk.injEq] at h
      have hc : st2.cache = none := by rw [← h.2]; rfl
      exact ⟨hc, load_after_invalidate now st2 hc⟩
  · intro id data p st2 h
    unfold PoliciesService.update at h
    split at h
    · exact absurd h (by simp)
    · simp only [Except.ok.injEq, Prod.mk.injEq] at h
      have hc : st2.cache = none := by rw [← h.2]; rfl
      exact ⟨hc, load_after_invalidate now st2 hc⟩
  · intro id st2 h
    unfold PoliciesService.deletePolicy at h
    split at h
    · exact absurd h (by simp)
    · simp only [Except.ok.injEq] at h
      have hc : st2.cache = none := by rw [← h]; rfl
      exact ⟨hc, load_after_invalidate now st2 hc⟩

/-- C5 witness: creating a policy into a service whose cache still holds a
stale empty snapshot leaves the cache cleared, and an immediate
`loadEnabledPolicies` (well inside the old TTL) already returns the written
row. -/
theorem policy_writes_no_stale_window_witness :
    PoliciesService.create ⟨"n", none, "allow", none⟩ [] none "pid" ⟨[], some ⟨[], 0⟩⟩
        = .ok (⟨"pid", "n", none, "allow", true, none, []⟩,
               ⟨[⟨"pid", "n", none, "allow", true, none, []⟩], none⟩)
    ∧ ((⟨[⟨"pid", "n", none, "allow", true, none, []⟩], none⟩ : SvcState).cache = none
        ∧ (loadEnabledPolicies 5 ⟨[⟨"pid", "n", none, "allow", true, none, []⟩], none⟩).1
            = enabledFromDb [⟨"pid", "n", none, "allow", true, none, []⟩]) :=
  ⟨rfl,
   (policy_writes_no_stale_window ⟨[], some ⟨[], 0⟩⟩ 5).1
     ⟨"n", none, "allow", none⟩ [] none "pid"
     ⟨"pid", "n", none, "allow", true, none, []⟩
     ⟨[⟨"pid", "n", none, "allow", true, none, []⟩], none⟩ rfl⟩

/-! ## C8: the guard short-circuits without an actor -/

/-- C8: without an authenticated actor the guard answers false for every
policy list — the decision does not depend on the policies, i.e. it precedes
policy evaluation; with an actor it assembles the documented context
(action is the request method, the subject's primary role is the first of
the actor's role list, the resource defaults to an id drawn from the path
parameter) and returns true iff the engine's effect is allow. -/
theorem canActivate_spec (req : GuardRequest) (ps : List Policy) (tod date : String) :
    (req.user = none → canActivate req ps tod date = false)
    ∧ (∀ u, req.user = some u →
        (canActivate req ps tod date
            = ((evaluate ps (buildPolicyContext req u tod date)).effect == "allow"))
        ∧ (buildPolicyContext req u tod date).action = req.method
        ∧ (∀ r rs, u.roles = some (r :: rs) →
            bagGet (buildPolicyContext req u tod date).subject "role" = .str r)
        ∧ (req.resource = none →
            (buildPolicyContext req u tod date).resource
              = some [("id", optStr (req.params.lookup "id"))])) := by
  constructor
  · intro h
    simp [canActivate, h]
  · intro u hu
    refine ⟨by simp [canActivate, hu], rfl, ?_, ?_⟩
    · intro r rs hr
      simp [buildPolicyContext, bagGet, List.lookup, primaryRole, hr]
    · intro h
      simp [buildPolicyContext, guardResource, h]

/-- A request with no authenticated actor. -/
def reqNoUser : GuardRequest := ⟨none, none, [("id", "42")], "GET", none, none⟩

/-- A concrete authenticated actor. -/
def demoUser : User := ⟨"u1", some ["ADMIN", "USER"], some [], some "IT", some "t1", some 3⟩

/-- The same request carrying `demoUser`. -/
def reqWithUser : GuardRequest :=
  ⟨some demoUser, none, [("id", "42")], "GET", some "127.0.0.1", some "curl"⟩

/-- C8 witness: the guard at concrete requests — false without an actor,
verdict-driven with one, and the primary role is the first role. -/
theorem canActivate_spec_witness :
    canActivate reqNoUser [] "10:00" "Mon" = false
    ∧ (canActivate reqWithUser [] "10:00" "Mon"
        = ((evaluate [] (buildPolicyContext reqWithUser demoUser "10:00" "Mon")).effect
            == "allow"))
    ∧ bagGet (buildPolicyContext reqWithUser demoUser "10:00" "Mon").subject "role"
        = .str "ADMIN" :=
  ⟨(canActivate_spec reqNoUser [] "10:00" "Mon").1 rfl,
   ((canActivate_spec reqWithUser [] "10:00" "Mon").2 demoUser rfl).1,
   ((canActivate_spec reqWithUser [] "10:00" "Mon").2 demoUser rfl).2.2.1
     "ADMIN" ["USER"] rfl⟩

/-! ## C9: cross-tenant access validation -/

/-- C9: the access-validation helper rejects when the actor tenant id is
absent (JS-falsy: missing or empty), returns cleanly when the resource
tenant id is absent, rejects when both are present and unequal, and returns
cleanly when both are present and equal. -/
theorem validateTenantAccess_spec (u r : Option String) :
    (truthyStr u = false →
        validateTenantAccess u r = .error "User does not belong to any tenant")
    ∧ (truthyStr u = true → truthyStr r = false → validateTenantAccess u r = .ok ())
    ∧ (truthyStr u = true → truthyStr r = true → u ≠ r →
        validateTenantAccess u r = .error "Access denied: Tenant mismatch")
    ∧ (truthyStr u = true → truthyStr r = true → u = r →
        validateTenantAccess u r = .ok ()) := by
  refine ⟨?_, ?_, ?_, ?_⟩
  · intro h1
    simp [validateTenantAccess, h1]
  · intro h1 h2
    simp [validateTenantAccess, h1, h2]
  · intro h1 h2 h3
    simp [validateTenantAccess, h1, h2, bne_iff_ne, h3]
  · intro h1 h2 h3
    simp [validateTenantAccess, h1, h2, bne_iff_ne, h3]

/-- C9 witness: the helper at concrete tenant-id pairs. -/
theorem validateTenantAccess_witness :
    validateTenantAccess none (some "t") = .error "User does not belong to any tenant"
    ∧ validateTenantAccess (some "a") none = .ok ()
    ∧ validateTenantAccess (some "a") (some "b") = .error "Access denied: Tenant mismatch"
    ∧ validateTenantAccess (some "a") (some "a") = .ok () :=
  ⟨(validateTenantAccess_spec none (some "t")).1 rfl,
   (validateTenantAccess_spec (some "a") none).2.1 rfl rfl,
   (validateTenantAccess_spec (some "a") (some "b")).2.2.1 rfl rfl (by decide),
   (validateTenantAccess_spec (some "a") (some "a")).2.2.2 rfl rfl rfl⟩

end Mono
